import Mathlib

set_option maxRecDepth 4000

/-!
Verification of the `resize` command-line utility (`src/main.rs`).

The program parses command-line options, and for each image path decodes the
image, computes new dimensions with `shrink_dimensions` / `enlarge_dimensions`,
resamples when a change is signaled, and writes the result back to the same
path.

Embedding conventions:
* `u32` values are embedded as `ℕ`.  None of the properties below involve
  wrap-around.
* The source computes the scaled dimension as
  `(size as f64 / a as f64 * b as f64).floor() as u32`.  Two embeddings of
  this expression are given:
  - `shrink_dimensions` / `enlarge_dimensions` replace it by the exact
    rational floor `size * b / a` (natural-number division), the value
    `floor(size / a * b)` of real arithmetic.  This idealization is used
    only for properties that are insensitive to the f64 rounding error: the
    branch guards are exact integer comparisons in both models, and the
    order-of-magnitude bounds proved here survive a relative error below
    `2^-50` (each of the two IEEE roundings perturbs a normal-range value by
    a relative factor of at most `2^-53`, and every strict inequality used
    has slack at least `2^-33`).
  - `shrink_dimensions_f64` / `enlarge_dimensions_f64` embed the expression
    bit-accurately: `roundF64` rounds a positive rational to the nearest
    IEEE binary64 value (ties to even) by integer arithmetic, and
    `f64scaled` composes the two correctly-rounded operations, the floor,
    and the saturating f64→u32 cast.  These are used for the properties
    that do depend on the rounding, where the two models genuinely differ
    (e.g. at `width = height = 49, size = 1` the program computes
    `(1.0/49.0)*49.0 = 0.9999999999999999`, flooring to `0`, while the
    exact rational floor is `1`).
* The fallible image pipeline (`decode`, `save`) is embedded with `Except`,
  parameterized by an abstract buffer type and abstract decode / resample /
  save functions, since decoding and encoding are delegated to the external
  `image` library.  File writes are tracked in an explicit effect log (the
  list of paths written to) so that frame conditions can be stated.
-/

/-- Embeds `enum Operation { Shrink, Enlarge }`. -/
inductive Operation where
  | Shrink
  | Enlarge

/-- Embeds `fn enlarge_dimensions(width: u32, height: u32, size: u32) -> Option<(u32, u32)>`:
if `width > height && width < size` then `(size, floor(size / width * height))`,
else if `height < size` then `(floor(size / height * width), size)`, else `None`.
The float expression `(size as f64 / a as f64 * b as f64).floor() as u32` is
idealized as the exact rational floor `size * b / a`; see
`enlarge_dimensions_f64` below for the bit-accurate embedding, and the module
docstring for which properties may rely on which. -/
def enlarge_dimensions (width height size : ℕ) : Option (ℕ × ℕ) :=
  if width > height ∧ width < size then
    some (size, size * height / width)
  else if height < size then
    some (size * width / height, size)
  else
    none

/-- Embeds `fn shrink_dimensions(width: u32, height: u32, size: u32) -> Option<(u32, u32)>`:
if `width > height && width > size` then `(size, floor(size / width * height))`,
else if `height > size` then `(floor(size / height * width), size)`, else `None`.
Float arithmetic idealized as in `enlarge_dimensions`; see
`shrink_dimensions_f64` below for the bit-accurate embedding. -/
def shrink_dimensions (width height size : ℕ) : Option (ℕ × ℕ) :=
  if width > height ∧ width > size then
    some (size, size * height / width)
  else if height > size then
    some (size * width / height, size)
  else
    none

/-! ### Bit-accurate embedding of the f64 computation

The following definitions embed
`(size as f64 / a as f64 * b as f64).floor() as u32` exactly: binary64
division and multiplication are correctly rounded to a 53-bit significand
with round-to-nearest, ties-to-even, and the final `as u32` cast saturates.
Subnormal and infinite values are not modeled; every intermediate value of
this program lies in `[2^-32, 2^64]`, far inside the normal range. -/

/-- Floor of the base-2 logarithm of `n` (for `n ≥ 1`), by fuel-bounded
structural recursion so that it evaluates inside the kernel; fuel `300`
covers every number below `2^300`. -/
def log2F : ℕ → ℕ → ℕ
  | 0, _ => 0
  | fuel + 1, n => if n ≤ 1 then 0 else log2F fuel (n / 2) + 1

/-- Round the positive rational `num / den` to the nearest IEEE binary64
value (53-bit significand, ties to even), returned as a dyadic pair
`(m, sh)` denoting `m / 2^sh`.  `k` is `200` plus the floor base-2 log of
the input, so the scaled value `x = (num/den) * 2^(252-k)` lies in
`[2^52, 2^53)`; `x` is rounded to the nearest integer (comparing twice the
division remainder with the divisor, ties broken to the even neighbor) and
shifted back.  Faithful for values in the normal range. -/
def roundF64 (num den : ℕ) : ℕ × ℕ :=
  if num = 0 ∨ den = 0 then (0, 0) else
    let k := log2F 300 (num * 2 ^ 200 / den)
    if k ≤ 252 then
      let sh := 252 - k
      let n := num * 2 ^ sh / den
      let r2 := 2 * (num * 2 ^ sh % den)
      let n2 := if den < r2 then n + 1
                else if r2 < den then n
                else if n % 2 = 0 then n else n + 1
      (n2, sh)
    else
      let sh := k - 252
      let n := num / (den * 2 ^ sh)
      let r2 := 2 * (num % (den * 2 ^ sh))
      let n2 := if den * 2 ^ sh < r2 then n + 1
                else if r2 < den * 2 ^ sh then n
                else if n % 2 = 0 then n else n + 1
      (n2 * 2 ^ sh, 0)

/-- Bit-accurate value of `(size as f64 / a as f64 * b as f64).floor() as u32`:
round `size / a` to binary64, multiply by `b` (exact, then rounded again),
floor, and apply the saturating f64→u32 cast. -/
def f64scaled (size a b : ℕ) : ℕ :=
  let d1 := roundF64 size a
  let d2 := roundF64 (d1.1 * b) (2 ^ d1.2)
  min (d2.1 / 2 ^ d2.2) (2 ^ 32 - 1)

/-- Bit-accurate embedding of `fn enlarge_dimensions`: identical branch
structure to `enlarge_dimensions`, with the scaled dimension computed by
`f64scaled` instead of the exact rational floor. -/
def enlarge_dimensions_f64 (width height size : ℕ) : Option (ℕ × ℕ) :=
  if width > height ∧ width < size then
    some (size, f64scaled size width height)
  else if height < size then
    some (f64scaled size height width, size)
  else
    none

/-- Bit-accurate embedding of `fn shrink_dimensions`: identical branch
structure to `shrink_dimensions`, with the scaled dimension computed by
`f64scaled` instead of the exact rational floor. -/
def shrink_dimensions_f64 (width height size : ℕ) : Option (ℕ × ℕ) :=
  if width > height ∧ width > size then
    some (size, f64scaled size width height)
  else if height > size then
    some (f64scaled size height width, size)
  else
    none

/-- An in-memory pixel buffer together with the dimensions reported by
`buffer.dimensions()` after `ImageLoader::open(image)?.decode()`.  The pixel
data itself is abstract (`β`). -/
structure DecodedImage (β : Type) where
  buffer : β
  width : ℕ
  height : ℕ

/-- Embeds `enum Resize<'a> { Resize { path, buffer }, Noop }`. -/
inductive Resize (β : Type) where
  | resize (path : String) (buffer : β)
  | noop

/-- Embeds `Resize::write`: on `Resize::Resize { path, buffer }` it calls
`buffer.write(path)` (i.e. `buffer.save(path)`), on `Resize::Noop` it returns
`Ok(())`.  The second component is the effect log: the list of paths a file
write was issued to.  `save` abstracts the `image` library's encoder. -/
def Resize.write (save : String → β → Except ε Unit) :
    Resize β → Except ε Unit × List String
  | Resize.resize path buffer => (save path buffer, [path])
  | Resize.noop => (Except.ok (), [])

/-- Embeds `fn shrink(image: &str, size: u32) -> io::Result<Resize>`: decode the
image (propagating failures), apply `shrink_dimensions`, and either build a
resampled buffer for the same path or signal `Noop`.  `decode` abstracts
`ImageLoader::open(..)?.decode()`, `resizeBuffer` abstracts the library call
`resize(&buffer, width, height, FilterType::Lanczos3)`. -/
def shrink (decode : String → Except ε (DecodedImage β))
    (resizeBuffer : β → ℕ → ℕ → β) (image : String) (size : ℕ) :
    Except ε (Resize β) :=
  match decode image with
  | Except.error e => Except.error e
  | Except.ok d =>
    match shrink_dimensions d.width d.height size with
    | some (width, height) =>
      Except.ok (Resize.resize image (resizeBuffer d.buffer width height))
    | none => Except.ok Resize.noop

/-- Embeds `fn enlarge(image: &str, size: u32) -> io::Result<Resize>`, the same
pipeline as `shrink` but driven by `enlarge_dimensions`. -/
def enlarge (decode : String → Except ε (DecodedImage β))
    (resizeBuffer : β → ℕ → ℕ → β) (image : String) (size : ℕ) :
    Except ε (Resize β) :=
  match decode image with
  | Except.error e => Except.error e
  | Except.ok d =>
    match enlarge_dimensions d.width d.height size with
    | some (width, height) =>
      Except.ok (Resize.resize image (resizeBuffer d.buffer width height))
    | none => Except.ok Resize.noop

/-- One iteration of `main`'s loop body for one image:
`enlarge(&image, opt.size)?.write()?` or `shrink(&image, opt.size)?.write()?`,
depending on `opt.operation`.  Returns the result together with the effect log
of file writes issued during this iteration. -/
def imageStep (decode : String → Except ε (DecodedImage β))
    (resizeBuffer : β → ℕ → ℕ → β) (save : String → β → Except ε Unit)
    (operation : Operation) (size : ℕ) (image : String) :
    Except ε Unit × List String :=
  match operation with
  | Operation.Enlarge =>
    match enlarge decode resizeBuffer image size with
    | Except.error e => (Except.error e, [])
    | Except.ok r => Resize.write save r
  | Operation.Shrink =>
    match shrink decode resizeBuffer image size with
    | Except.error e => (Except.error e, [])
    | Except.ok r => Resize.write save r

/-- Embeds the loop of `fn main`: images are processed in list order, each via
`imageStep`; the `?` operator makes the first error abort the loop and become
`main`'s return value.  The second component accumulates the file-write log. -/
def mainLoop (decode : String → Except ε (DecodedImage β))
    (resizeBuffer : β → ℕ → ℕ → β) (save : String → β → Except ε Unit)
    (operation : Operation) (size : ℕ) :
    List String → Except ε Unit × List String
  | [] => (Except.ok (), [])
  | image :: rest =>
    match (imageStep decode resizeBuffer save operation size image).1 with
    | Except.ok _ =>
      ((mainLoop decode resizeBuffer save operation size rest).1,
        (imageStep decode resizeBuffer save operation size image).2 ++
          (mainLoop decode resizeBuffer save operation size rest).2)
    | Except.error e =>
      (Except.error e, (imageStep decode resizeBuffer save operation size image).2)

/-! ### Concrete fixtures used by the witnesses of the pipeline claims -/

/-- A path whose decode succeeds in the fixtures below. -/
def goodPath : String := "good.png"

/-- A path whose decode fails in the fixtures below. -/
def badPath : String := "bad.png"

/-- A path listed after the failing one in the fixtures below. -/
def tailPath : String := "later.png"

/-- Fixture decoder: fails (error code `7`) on `badPath`, otherwise yields a
trivial 5000×3000 buffer. -/
def decodeFix : String → Except ℕ (DecodedImage Unit) :=
  fun image => if image = badPath then Except.error 7 else Except.ok ⟨(), 5000, 3000⟩

/-- Fixture decoder: always yields a trivial 1500×1500 buffer. -/
def decodeNoop : String → Except ℕ (DecodedImage Unit) :=
  fun _ => Except.ok ⟨(), 1500, 1500⟩

/-! ### Arithmetic helper lemmas about the scaled dimension `size * b / a` -/

/-- If `b ≤ a` then the scaled dimension `size * b / a` is at most `size`. -/
lemma scaled_le_size (s a b : ℕ) (h : b ≤ a) : s * b / a ≤ s := by
  rcases Nat.eq_zero_or_pos a with ha | ha
  · subst ha
    simp
  · calc s * b / a ≤ s * a / a := Nat.div_le_div_right (Nat.mul_le_mul_left s h)
    _ = s := Nat.mul_div_cancel s ha

/-- If `0 < a ≤ s` then scaling `b` by `s / a` does not decrease it. -/
lemma le_scaled (s a b : ℕ) (ha : 0 < a) (h : a ≤ s) : b ≤ s * b / a := by
  rw [Nat.le_div_iff_mul_le ha]
  calc b * a = a * b := Nat.mul_comm b a
  _ ≤ s * b := Nat.mul_le_mul_right b h

/-- If `0 < a` and `s ≤ a` then scaling `b` by `s / a` does not increase it. -/
lemma scaled_le (s a b : ℕ) (ha : 0 < a) (h : s ≤ a) : s * b / a ≤ b := by
  calc s * b / a ≤ a * b / a := Nat.div_le_div_right (Nat.mul_le_mul_right b h)
  _ = b := Nat.mul_div_cancel_left b ha


/-- Unfolding `mainLoop` on a cons whose step succeeds: the loop continues
with the rest of the list, prepending this step's writes. -/
lemma mainLoop_cons_ok {ε β : Type} (decode : String → Except ε (DecodedImage β))
    (resizeBuffer : β → ℕ → ℕ → β) (save : String → β → Except ε Unit)
    (operation : Operation) (size : ℕ) (image : String) (rest : List String)
    (h : (imageStep decode resizeBuffer save operation size image).1 = Except.ok ()) :
    mainLoop decode resizeBuffer save operation size (image :: rest) =
      ((mainLoop decode resizeBuffer save operation size rest).1,
        (imageStep decode resizeBuffer save operation size image).2 ++
          (mainLoop decode resizeBuffer save operation size rest).2) := by
  simp only [mainLoop, h]

/-- Unfolding `mainLoop` on a cons whose step fails: the loop stops with that
error and only this step's writes. -/
lemma mainLoop_cons_error {ε β : Type} (decode : String → Except ε (DecodedImage β))
    (resizeBuffer : β → ℕ → ℕ → β) (save : String → β → Except ε Unit)
    (operation : Operation) (size : ℕ) (image : String) (rest : List String) (e : ε)
    (h : (imageStep decode resizeBuffer save operation size image).1 = Except.error e) :
    mainLoop decode resizeBuffer save operation size (image :: rest) =
      (Except.error e, (imageStep decode resizeBuffer save operation size image).2) := by
  simp only [mainLoop, h]

/-! ### Claims about the dimension calculator -/

/-- C1, counterexample: at `width = 2000, height = 500, size = 1000` the
function `enlarge_dimensions` signals a change with result `(4000, 1000)`,
whose longer dimension `4000` is not the target size `1000`.  (The first
branch is skipped because `width < size` fails, yet the second branch fires
on `height < size` and scales the already-oversized width up.) -/
theorem c1_long_dimension_cex :
    enlarge_dimensions 2000 500 1000 = some (4000, 1000) ∧
      max 4000 1000 ≠ 1000 := by
  decide

/-- C1 (amended): whenever `shrink_dimensions width height size` returns
`some (nw, nh)`, the longer of `nw` and `nh` equals `size`; whenever
`enlarge_dimensions width height size` returns `some (nw, nh)` **and**
`width ≤ height` or `width < size`, the longer of `nw` and `nh` equals
`size`.  (In the remaining case — `width > height`, `width ≥ size`,
`height < size` — enlarge returns a pair whose longer dimension exceeds
`size`, as the counterexample shows.) -/
theorem c1_long_dimension_eq_size (width height size : ℕ) :
    (∀ nw nh, shrink_dimensions width height size = some (nw, nh) →
      max nw nh = size) ∧
    (∀ nw nh, width ≤ height ∨ width < size →
      enlarge_dimensions width height size = some (nw, nh) →
      max nw nh = size) := by
  constructor
  · intro nw nh hsome
    unfold shrink_dimensions at hsome
    split_ifs at hsome with h1 h2
    · simp only [Option.some.injEq, Prod.mk.injEq] at hsome
      obtain ⟨rfl, rfl⟩ := hsome
      exact Nat.max_eq_left (scaled_le_size size width height (Nat.le_of_lt h1.1))
    · simp only [Option.some.injEq, Prod.mk.injEq] at hsome
      obtain ⟨rfl, rfl⟩ := hsome
      have hwh : width ≤ height := by omega
      exact Nat.max_eq_right (scaled_le_size size height width hwh)
  · intro nw nh hcond hsome
    unfold enlarge_dimensions at hsome
    split_ifs at hsome with h1 h2
    · simp only [Option.some.injEq, Prod.mk.injEq] at hsome
      obtain ⟨rfl, rfl⟩ := hsome
      exact Nat.max_eq_left (scaled_le_size size width height (Nat.le_of_lt h1.1))
    · simp only [Option.some.injEq, Prod.mk.injEq] at hsome
      obtain ⟨rfl, rfl⟩ := hsome
      have hwh : width ≤ height := by
        rcases hcond with h | h
        · exact h
        · omega
      exact Nat.max_eq_right (scaled_le_size size height width hwh)

/-- Witness for C1 (amended), at the shrink input `(5000, 3000, 2000)` and the
enlarge input `(300, 500, 1000)`. -/
theorem c1_long_dimension_eq_size_witness :
    shrink_dimensions 5000 3000 2000 = some (2000, 1200) ∧
      max 2000 1200 = 2000 ∧
      enlarge_dimensions 300 500 1000 = some (600, 1000) ∧
      max 600 1000 = 1000 :=
  ⟨by decide,
   (c1_long_dimension_eq_size 5000 3000 2000).1 2000 1200 (by decide),
   by decide,
   (c1_long_dimension_eq_size 300 500 1000).2 600 1000 (Or.inl (by decide))
     (by decide)⟩

/-- C2, counterexample: at `width = 2000, height = 500, size = 1000` the long
dimension (`max 2000 500 = 2000`) is not strictly less than `size = 1000`,
yet `enlarge_dimensions` returns `Some` rather than `None`. -/
theorem c2_enlarge_some_cex :
    (enlarge_dimensions 2000 500 1000).isSome = true ∧
      ¬ (max 2000 500 < 1000) := by
  decide

/-- C2 (amended): `enlarge_dimensions width height size` returns `Some`
(triggers scaling) if and only if `height` is strictly less than `size`; in
every other case it returns `None`.  (The long-dimension condition stated in
the claim is wrong when `width > height ≥ size`.) -/
theorem c2_enlarge_some_iff (width height size : ℕ) :
    (enlarge_dimensions width height size).isSome = true ↔ height < size := by
  unfold enlarge_dimensions
  split_ifs with h1 h2
  · exact iff_of_true (by simp) (by omega)
  · exact iff_of_true (by simp) h2
  · exact iff_of_false (by simp) h2

/-- C3, counterexample: all of `width = 100, height = 2, size = 3` are
positive, and `shrink_dimensions` signals a change, but the computed height
`floor(3 / 100 * 2) = 0` is not strictly positive. -/
theorem c3_positive_cex :
    shrink_dimensions 100 2 3 = some (3, 0) ∧ ¬ (0 < 3 ∧ 0 < (0 : ℕ)) := by
  decide

/-- C3 (amended): for positive `width`, `height`, `size`, every `Some` result
of `enlarge_dimensions` has both components strictly positive; for
`shrink_dimensions` this holds under the additional bound
`2 * max width height ≤ size * min width height` (without such a bound the
scaled dimension floors to `0`, as the counterexample shows).  Both parts are
robust to the exact-rational idealization of the f64 floor: the enlarge
branches scale by a true ratio of at least `1 + 2^-32`, and the shrink bound
leaves the true quotient at least `2`, margins that a relative rounding
error below `2^-50` cannot consume — whereas a margin of one unit can be
consumed, e.g. the real program floors `(1.0/49.0)*49.0` to `0` at
`width = height = 49, size = 1`. -/
theorem c3_positive_amended (width height size : ℕ)
    (hw : 0 < width) (hh : 0 < height) (hs : 0 < size) :
    (∀ nw nh, 2 * max width height ≤ size * min width height →
      shrink_dimensions width height size = some (nw, nh) → 0 < nw ∧ 0 < nh) ∧
    (∀ nw nh, enlarge_dimensions width height size = some (nw, nh) →
      0 < nw ∧ 0 < nh) := by
  constructor
  · intro nw nh hbound hsome
    unfold shrink_dimensions at hsome
    split_ifs at hsome with h1 h2
    · simp only [Option.some.injEq, Prod.mk.injEq] at hsome
      obtain ⟨rfl, rfl⟩ := hsome
      rw [Nat.max_eq_left (Nat.le_of_lt h1.1),
        Nat.min_eq_right (Nat.le_of_lt h1.1)] at hbound
      exact ⟨hs, Nat.div_pos (by omega) hw⟩
    · simp only [Option.some.injEq, Prod.mk.injEq] at hsome
      obtain ⟨rfl, rfl⟩ := hsome
      have hwh : width ≤ height := by omega
      rw [Nat.max_eq_right hwh, Nat.min_eq_left hwh] at hbound
      exact ⟨Nat.div_pos (by omega) hh, hs⟩
  · intro nw nh hsome
    unfold enlarge_dimensions at hsome
    split_ifs at hsome with h1 h2
    · simp only [Option.some.injEq, Prod.mk.injEq] at hsome
      obtain ⟨rfl, rfl⟩ := hsome
      have hws : width ≤ size * height := by
        calc width ≤ size := Nat.le_of_lt h1.2
        _ = size * 1 := (Nat.mul_one size).symm
        _ ≤ size * height := Nat.mul_le_mul_left size hh
      exact ⟨hs, Nat.div_pos hws hw⟩
    · simp only [Option.some.injEq, Prod.mk.injEq] at hsome
      obtain ⟨rfl, rfl⟩ := hsome
      have hhs : height ≤ size * width := by
        calc height ≤ size := Nat.le_of_lt h2
        _ = size * 1 := (Nat.mul_one size).symm
        _ ≤ size * width := Nat.mul_le_mul_left size hw
      exact ⟨Nat.div_pos hhs hh, hs⟩

/-- Witness for C3 (amended), at `(100, 4, 50)`: the bound
`2 * 100 ≤ 50 * 4` holds, shrink yields `(50, 2)` and enlarge yields
`(1250, 50)`, all components positive. -/
theorem c3_positive_amended_witness :
    shrink_dimensions 100 4 50 = some (50, 2) ∧ (0 < 50 ∧ 0 < 2) ∧
      enlarge_dimensions 100 4 50 = some (1250, 50) ∧ (0 < 1250 ∧ 0 < 50) :=
  ⟨by decide,
   (c3_positive_amended 100 4 50 (by decide) (by decide) (by decide)).1 50 2
     (by decide) (by decide),
   by decide,
   (c3_positive_amended 100 4 50 (by decide) (by decide) (by decide)).2 1250 50
     (by decide)⟩

/-- C4, counterexample: at `width = 490, height = 49, size = 10` the program
returns `(10, 0)`: `10.0/490.0` rounds to a binary64 slightly below `1/49`,
and multiplying by `49.0` and rounding again gives `0.9999999999999999`,
which floors to `0` — while the claim's exact-arithmetic formula
`floor(size / width * height) = 10 * 49 / 490 = 1` predicts `(10, 1)`.
Evaluated on the bit-accurate embedding `shrink_dimensions_f64`. -/
theorem c4_shrink_formula_cex :
    shrink_dimensions_f64 490 49 10 = some (10, 0) ∧
      (10 * 49 / 490 : ℕ) = 1 ∧ (0 : ℕ) ≠ 1 := by
  decide

/-- C4 (amended): for `height < width` and `size < width`,
`shrink_dimensions` returns `some (size, nh)` where `nh` is the
f64-evaluated scaling `f64scaled size width height` — the floor of the
correctly-rounded product `(size as f64 / width as f64) * height as f64`,
which can fall below the exact floor `floor(size / width * height)`, as the
counterexample shows; when instead the long dimension is a height
(`width ≤ height`, ties included) greater than `size`, it returns
`some (f64scaled size height width, size)`.  Stated and proved over the
bit-accurate embedding. -/
theorem c4_shrink_formula_f64 (width height size : ℕ) :
    (height < width → size < width →
      shrink_dimensions_f64 width height size =
        some (size, f64scaled size width height)) ∧
    (width ≤ height → size < height →
      shrink_dimensions_f64 width height size =
        some (f64scaled size height width, size)) := by
  constructor
  · intro hhw hsw
    unfold shrink_dimensions_f64
    rw [if_pos ⟨hhw, hsw⟩]
  · intro hwh hsh
    unfold shrink_dimensions_f64
    rw [if_neg fun hc => absurd hc.1 (Nat.not_lt.mpr hwh), if_pos hsh]

/-- Witness for C4 (amended) at `(5000, 3000, 2000)` (width branch) and
`(3000, 5000, 2000)` (height branch); there the f64 scaling agrees with the
exact floor, `1200`. -/
theorem c4_shrink_formula_f64_witness :
    shrink_dimensions_f64 5000 3000 2000 =
        some (2000, f64scaled 2000 5000 3000) ∧
      shrink_dimensions_f64 3000 5000 2000 =
        some (f64scaled 2000 5000 3000, 2000) ∧
      f64scaled 2000 5000 3000 = 1200 :=
  ⟨(c4_shrink_formula_f64 5000 3000 2000).1 (by decide) (by decide),
   (c4_shrink_formula_f64 3000 5000 2000).2 (by decide) (by decide),
   by decide⟩

/-- C5 (confirmed): if both dimensions are at most `size` then
`shrink_dimensions` returns `None`, and if both are at least `size` then
`enlarge_dimensions` returns `None`. -/
theorem c5_noop (width height size : ℕ) :
    (width ≤ size → height ≤ size →
      shrink_dimensions width height size = none) ∧
    (size ≤ width → size ≤ height →
      enlarge_dimensions width height size = none) := by
  constructor
  · intro hw hh
    unfold shrink_dimensions
    rw [if_neg fun hc => absurd hc.2 (Nat.not_lt.mpr hw),
      if_neg (Nat.not_lt.mpr hh)]
  · intro hw hh
    unfold enlarge_dimensions
    rw [if_neg fun hc => absurd hc.2 (Nat.not_lt.mpr hw),
      if_neg (Nat.not_lt.mpr hh)]

/-- Witness for C5 at `(1200, 1800, 2000)` for shrink and `(800, 1200, 700)`
for enlarge. -/
theorem c5_noop_witness :
    shrink_dimensions 1200 1800 2000 = none ∧
      enlarge_dimensions 800 1200 700 = none :=
  ⟨(c5_noop 1200 1800 2000).1 (by decide) (by decide),
   (c5_noop 800 1200 700).2 (by decide) (by decide)⟩

/-- C6 (confirmed): the six concrete scenarios from the spec and the
repository's test module. -/
theorem c6_scenarios :
    shrink_dimensions 5000 3000 2000 = some (2000, 1200) ∧
      shrink_dimensions 3000 5000 2000 = some (1200, 2000) ∧
      shrink_dimensions 1200 1800 2000 = none ∧
      enlarge_dimensions 500 300 1000 = some (1000, 600) ∧
      enlarge_dimensions 300 500 1000 = some (600, 1000) ∧
      enlarge_dimensions 800 1200 1000 = none := by
  decide

/-- C7, counterexample: at the tie `width = height = 49` with `size = 1` the
program does take the height branch but returns `(0, 1)`: the f64 product
`(1.0/49.0)*49.0` evaluates to `0.9999999999999999` and floors to `0`,
while the claim's formula `floor(size / height * width) = 1 * 49 / 49 = 1`
predicts `(1, 1)`.  Evaluated on the bit-accurate embedding. -/
theorem c7_tie_height_branch_cex :
    shrink_dimensions_f64 49 49 1 = some (0, 1) ∧
      (1 * 49 / 49 : ℕ) = 1 ∧ (0 : ℕ) ≠ 1 := by
  decide

/-- C7 (amended): on ties (`width = height = w`) both calculators fall
through to the height branch, which carries the target as the new height and
the f64-evaluated scaling as the new width: shrink returns
`some (f64scaled size w w, size)` exactly when `size < w`, and enlarge
returns the same pair exactly when `w < size`.  (`f64scaled size w w` is not
always `size`: per the counterexample it is `0` at `w = 49, size = 1`.)
Stated and proved over the bit-accurate embedding. -/
theorem c7_tie_height_branch_f64 (w size : ℕ) :
    (shrink_dimensions_f64 w w size = some (f64scaled size w w, size) ↔
      size < w) ∧
    (enlarge_dimensions_f64 w w size = some (f64scaled size w w, size) ↔
      w < size) := by
  constructor
  · unfold shrink_dimensions_f64
    rw [if_neg fun hc => absurd hc.1 (lt_irrefl w)]
    split_ifs with h
    · exact iff_of_true rfl h
    · exact iff_of_false (by simp) h
  · unfold enlarge_dimensions_f64
    rw [if_neg fun hc => absurd hc.1 (lt_irrefl w)]
    split_ifs with h
    · exact iff_of_true rfl h
    · exact iff_of_false (by simp) h

/-- C10 (confirmed): for positive inputs, a `Some` result of
`shrink_dimensions` never increases either dimension, and a `Some` result of
`enlarge_dimensions` never decreases either dimension. -/
theorem c10_monotone (width height size : ℕ)
    (hw : 0 < width) (hh : 0 < height) (_hs : 0 < size) :
    (∀ nw nh, shrink_dimensions width height size = some (nw, nh) →
      nw ≤ width ∧ nh ≤ height) ∧
    (∀ nw nh, enlarge_dimensions width height size = some (nw, nh) →
      width ≤ nw ∧ height ≤ nh) := by
  constructor
  · intro nw nh hsome
    unfold shrink_dimensions at hsome
    split_ifs at hsome with h1 h2
    · simp only [Option.some.injEq, Prod.mk.injEq] at hsome
      obtain ⟨rfl, rfl⟩ := hsome
      exact ⟨Nat.le_of_lt h1.2, scaled_le size width height hw (Nat.le_of_lt h1.2)⟩
    · simp only [Option.some.injEq, Prod.mk.injEq] at hsome
      obtain ⟨rfl, rfl⟩ := hsome
      exact ⟨scaled_le size height width hh (Nat.le_of_lt h2), Nat.le_of_lt h2⟩
  · intro nw nh hsome
    unfold enlarge_dimensions at hsome
    split_ifs at hsome with h1 h2
    · simp only [Option.some.injEq, Prod.mk.injEq] at hsome
      obtain ⟨rfl, rfl⟩ := hsome
      exact ⟨Nat.le_of_lt h1.2, le_scaled size width height hw (Nat.le_of_lt h1.2)⟩
    · simp only [Option.some.injEq, Prod.mk.injEq] at hsome
      obtain ⟨rfl, rfl⟩ := hsome
      exact ⟨le_scaled size height width hh (Nat.le_of_lt h2), Nat.le_of_lt h2⟩

/-- Witness for C10 at `(100, 2, 50)`: shrink yields `(50, 1)` with both
components no larger, enlarge yields `(2500, 50)` with both components no
smaller. -/
theorem c10_monotone_witness :
    shrink_dimensions 100 2 50 = some (50, 1) ∧ (50 ≤ 100 ∧ 1 ≤ 2) ∧
      enlarge_dimensions 100 2 50 = some (2500, 50) ∧ (100 ≤ 2500 ∧ 2 ≤ 50) :=
  ⟨by decide,
   (c10_monotone 100 2 50 (by decide) (by decide) (by decide)).1 50 1 (by decide),
   by decide,
   (c10_monotone 100 2 50 (by decide) (by decide) (by decide)).2 2500 50 (by decide)⟩

/-! ### Claims about the image pipeline and the main loop -/

/-- C8 (confirmed): in `main`'s per-image loop, if every image in the prefix
`xs` processes successfully and processing image `x` (decode, resample, or
write) fails with error `e`, then the loop over the list `xs ++ x :: ys`
returns exactly that error from `main`, and its file-write log is exactly the
writes of `xs` in list order followed by the writes attempted for `x` — no
image of the suffix `ys` is processed, whatever `ys` is. -/
theorem c8_fail_fast (ε β : Type) (decode : String → Except ε (DecodedImage β))
    (resizeBuffer : β → ℕ → ℕ → β) (save : String → β → Except ε Unit)
    (operation : Operation) (size : ℕ) (xs ys : List String) (x : String) (e : ε)
    (hok : ∀ a ∈ xs,
      (imageStep decode resizeBuffer save operation size a).1 = Except.ok ())
    (hx : (imageStep decode resizeBuffer save operation size x).1 = Except.error e) :
    mainLoop decode resizeBuffer save operation size (xs ++ x :: ys) =
      (Except.error e,
        (xs.map fun a =>
          (imageStep decode resizeBuffer save operation size a).2).flatten ++
          (imageStep decode resizeBuffer save operation size x).2) := by
  induction xs with
  | nil =>
    rw [List.nil_append,
      mainLoop_cons_error decode resizeBuffer save operation size x ys e hx]
    simp
  | cons a as ih =>
    have ha : (imageStep decode resizeBuffer save operation size a).1 =
        Except.ok () :=
      hok a (List.mem_cons_self a as)
    have hok2 : ∀ b ∈ as,
        (imageStep decode resizeBuffer save operation size b).1 = Except.ok () :=
      fun b hb => hok b (List.mem_cons_of_mem a hb)
    rw [List.cons_append,
      mainLoop_cons_ok decode resizeBuffer save operation size a (as ++ x :: ys) ha,
      ih hok2]
    simp [List.append_assoc]

/-- Witness for C8 with the fixture decoder: image `goodPath` shrinks and is
written, `badPath` fails to decode with error `7`, and `tailPath` is never
touched: the loop result is the error and the write log is just `goodPath`. -/
theorem c8_fail_fast_witness :
    mainLoop decodeFix (fun b _ _ => b) (fun _ _ => Except.ok ())
        Operation.Shrink 2000 [goodPath, badPath, tailPath] =
      (Except.error 7, [goodPath]) :=
  c8_fail_fast ℕ Unit decodeFix (fun b _ _ => b) (fun _ _ => Except.ok ())
    Operation.Shrink 2000 [goodPath] [tailPath] badPath 7
    (by
      intro a ha
      rw [List.mem_singleton] at ha
      subst ha
      rfl)
    (by rfl)

/-- C9 (confirmed): when decoding succeeds and the dimension calculator
returns `none` for the image, the pipeline (`shrink` or `enlarge`) produces
the `Noop` outcome, and `Resize::write` on `Noop` issues no file write and
returns `Ok(())` — the file is left untouched. -/
theorem c9_noop_no_write (ε β : Type) (decode : String → Except ε (DecodedImage β))
    (resizeBuffer : β → ℕ → ℕ → β) (save : String → β → Except ε Unit)
    (image : String) (size : ℕ) (d : DecodedImage β)
    (hdec : decode image = Except.ok d) :
    (shrink_dimensions d.width d.height size = none →
      shrink decode resizeBuffer image size = Except.ok Resize.noop) ∧
    (enlarge_dimensions d.width d.height size = none →
      enlarge decode resizeBuffer image size = Except.ok Resize.noop) ∧
    Resize.write save (Resize.noop : Resize β) = (Except.ok (), []) := by
  refine ⟨fun hnone => ?_, fun hnone => ?_, rfl⟩
  · simp only [shrink, hdec, hnone]
  · simp only [enlarge, hdec, hnone]

/-- Witness for C9 with the always-1500×1500 fixture decoder and target size
1500: both pipelines signal `Noop`, and writing `Noop` succeeds with an empty
write log. -/
theorem c9_noop_no_write_witness :
    shrink decodeNoop (fun b _ _ => b) goodPath 1500 = Except.ok Resize.noop ∧
      enlarge decodeNoop (fun b _ _ => b) goodPath 1500 = Except.ok Resize.noop ∧
      Resize.write (fun _ _ => (Except.ok () : Except ℕ Unit))
          (Resize.noop : Resize Unit) =
        ((Except.ok (), []) : Except ℕ Unit × List String) :=
  have h := c9_noop_no_write ℕ Unit decodeNoop (fun b _ _ => b)
    (fun _ _ => (Except.ok () : Except ℕ Unit)) goodPath 1500 ⟨(), 1500, 1500⟩ rfl
  ⟨h.1 (by decide), h.2.1 (by decide), h.2.2⟩
